import Mathlib

/-!
Verification development for the attentio learning-path server.

The definitions below are a shallow embedding of the JavaScript/TypeScript
source: the Express route handlers in `src/server/routes/paths.js`
(Supabase variant, the one wired to `src/server/db/index.js`), the
achievement helpers, the validation middleware in
`src/server/middleware/validation.js`, the path-generation pipeline in
`src/server/routes/ai.js`, and the client-side toggle key computations.
Database state is modelled as explicit lists of rows; timestamps are
abstract `Nat` clock values passed into each operation.
-/

deriving instance DecidableEq for Except

/-- JS string truthiness fallback for an optional value: models
`o || d` where an absent value or the empty string falls back to `d`. -/
def jsOrString (o : Option String) (d : String) : String :=
  match o with
  | some s => if s = "" then d else s
  | none => d

/-- Models JS `v || null` for an optional string stored into a nullable
column: absent or empty strings become NULL. -/
def jsOrNull (o : Option String) : Option String :=
  match o with
  | some s => if s = "" then none else some s
  | none => none

/-- JS numeric truthiness fallback `o || d` (0 is falsy). -/
def jsOrNat (o : Option Nat) (d : Nat) : Nat :=
  match o with
  | some n => if n = 0 then d else n
  | none => d

/-- A consumable content item, from `Resource` in `src/types.ts` and the
object literals built in `searchYouTubeVideo` / the learning-path handler
in `src/server/routes/ai.js`. -/
structure Resource where
  title : String
  rtype : String
  description : String
  url : String
  videoId : Option String
  views : String
  viewCount : Nat
  publishedDate : String
  durationMin : Nat
  thumbnailUrl : Option String
deriving Repr, DecidableEq

/-- Fuel-driven floor-log2: structural recursion so that it evaluates by
kernel reduction. -/
def natLog2Aux : Nat → Nat → Nat
  | 0, _ => 0
  | fuel + 1, n => if 2 ≤ n then natLog2Aux fuel (n / 2) + 1 else 0

/-- Floor of the base-2 logarithm (0 at 0). -/
def natLog2 (n : Nat) : Nat := natLog2Aux n n

/-- Round `p / q` (`q > 0`) to the nearest integer, ties to even: the
significand rounding of IEEE-754 round-to-nearest-even, applied to exact
integers. -/
def rne (p q : Nat) : Nat :=
  if 2 * (p % q) < q then p / q
  else if q < 2 * (p % q) then p / q + 1
  else if (p / q) % 2 = 0 then p / q else p / q + 1

/-- Round `p / q` (`q > 0`) to the nearest integer, ties toward the
larger value: the rounding ECMAScript `toFixed` applies to a positive
number. -/
def rhu (p q : Nat) : Nat := (2 * p + q) / (2 * q)

/-- The binade exponent `floor (log2 (n / den))` of the positive rational
`n / den`, computed by shifting `n` into the integer range first (exact:
`floor (log2 (x * 2^64)) = floor (log2 x) + 64`). -/
def binadeExp (n den : Nat) : Int := (natLog2 (n * 2 ^ 64 / den) : Int) - 64

/-- The IEEE-754 binary64 value nearest to `n / den` (round to nearest,
ties to even), as a significand/exponent pair `(m, t)` denoting
`m * 2^(t-52)` with `t = floor (log2 (n/den))`: this is the double JS
computes for `viewCount / 1000000`.  Faithful on the normal range (all
quotients arising in the view-count formatter, for counts below 2^53);
no subnormal, infinity or NaN handling. -/
def doubleOfRat (n den : Nat) : Nat × Int :=
  let t := binadeExp n den
  if t ≤ 52 then (rne (n * 2 ^ (52 - t).toNat) den, t)
  else (rne n (den * 2 ^ (t - 52).toNat), t)

/-- One decimal digit formatting of `num / den`, modelling JS
`(num / den).toFixed(1)`: the division first rounds to the nearest
binary64 double `m * 2^(t-52)`, then `toFixed(1)` picks the integer
number of tenths closest to that double's exact value, the larger on
ties, and renders it as "w.d". -/
def jsToFixed1 (num den : Nat) : String :=
  let md := doubleOfRat num den
  let tenths :=
    if md.2 ≤ 52 then rhu (10 * md.1) (2 ^ (52 - md.2).toNat)
    else 10 * md.1 * 2 ^ (md.2 - 52).toNat
  toString (tenths / 10) ++ "." ++ toString (tenths % 10)

/-- View-count display string, from `searchYouTubeVideo` in
`src/server/routes/ai.js`:
`if (viewCount >= 1000000) views = (viewCount/1000000).toFixed(1) + "M views";
else if (viewCount >= 1000) views = (viewCount/1000).toFixed(1) + "K views";
else views = viewCount + " views";`. -/
def formatViews (viewCount : Nat) : String :=
  if viewCount ≥ 1000000 then jsToFixed1 viewCount 1000000 ++ "M views"
  else if viewCount ≥ 1000 then jsToFixed1 viewCount 1000 ++ "K views"
  else toString viewCount ++ " views"

/-- Spec-worded view-count formatter (truncate to one decimal place),
written from the spec sentence for claim C10, for comparison against the
source-derived `formatViews`. -/
def specFormatViewsTruncated (n : Nat) : String :=
  if n ≥ 1000000 then
    toString ((10 * n / 1000000) / 10) ++ "." ++ toString ((10 * n / 1000000) % 10) ++ "M views"
  else if n ≥ 1000 then
    toString ((10 * n / 1000) / 10) ++ "." ++ toString ((10 * n / 1000) % 10) ++ "K views"
  else toString n ++ " views"

/-- A legacy key topic, from `KeyTopic` in `src/types.ts`. -/
structure KeyTopic where
  name : String
  resource : Resource
deriving Repr, DecidableEq

/-- A legacy path stage, from `PathStage` in `src/types.ts`. -/
structure PathStage where
  stageName : String
  description : String
  goal : String
  keyTopics : List KeyTopic
  suggestedProject : String
deriving Repr, DecidableEq

/-- An assembled lesson, from the object built per lesson in the
learning-path handler of `src/server/routes/ai.js`. -/
structure Lesson where
  id : String
  title : String
  description : String
  xpReward : Nat
  resource : Resource
deriving Repr, DecidableEq

/-- An assembled level, from the object built per level in the
learning-path handler of `src/server/routes/ai.js`. -/
structure CourseLevel where
  id : String
  levelNumber : Nat
  title : String
  description : String
  icon : String
  lessons : List Lesson
  challengeProject : Option String
  totalXp : Nat
deriving Repr, DecidableEq

/-- An assembled unit, from the object built per unit in the
learning-path handler of `src/server/routes/ai.js`. -/
structure CourseUnit where
  id : String
  unitNumber : Nat
  title : String
  description : String
  color : String
  levels : List CourseLevel
  bossChallenge : Option String
deriving Repr, DecidableEq

/-- A complete new-format learning path, from `LearningPath` in
`src/types.ts` and the final object of the learning-path handler. -/
structure LearningPath where
  topic : String
  totalUnits : Nat
  totalLevels : Nat
  totalLessons : Nat
  totalXp : Nat
  units : List CourseUnit
deriving Repr, DecidableEq

/-- A path payload as submitted to `POST /api/paths`: either the legacy
`PathStage[]` array or the new unit/level/lesson object.  The
discriminant mirrors `isNewPathFormat` in
`src/server/middleware/validation.js` (an object with a `units` array is
the new format; an array is the legacy format). -/
inductive PathData where
  | legacy (stages : List PathStage)
  | duo (path : LearningPath)
deriving Repr, DecidableEq

/-- JS `String.prototype.trim`: strip whitespace from both ends,
modelled directly on the character list so it evaluates by reduction. -/
def jsTrim (s : String) : String :=
  ((s.toList.dropWhile Char.isWhitespace).reverse.dropWhile Char.isWhitespace).reverse.asString

/-- Topic validity, from `isValidTopic` in
`src/server/middleware/validation.js`: trimmed length between 2 and 200. -/
def isValidTopic (topic : String) : Bool :=
  2 ≤ (jsTrim topic).length && (jsTrim topic).length ≤ 200

/-- String sanitization, from `sanitizeString` in
`src/server/middleware/validation.js`: trim, drop angle brackets, cap at
1000 characters. -/
def sanitizeString (s : String) : String :=
  (((jsTrim s).toList.filter (fun c => c ≠ '<' && c ≠ '>')).take 1000).asString

/-- Result of the `validatePathData` middleware
(`src/server/middleware/validation.js`): either a 400 rejection message,
or the sanitized topic together with the `isNewFormat` flag it stores on
the request body. -/
def validatePathData (topic : String) (pathData : PathData) : Except String (String × Bool) :=
  if !(isValidTopic topic) then .error "Valid topic required"
  else
    match pathData with
    | .duo lp =>
      if lp.units.length = 0 then .error "Path must have at least one unit"
      else if lp.units.any (fun u => u.title = "" || u.levels.length = 0) then
        .error "Invalid unit structure"
      else if lp.units.any (fun u => u.levels.any (fun l => l.title = "" || l.lessons.length = 0)) then
        .error "Invalid level structure"
      else .ok (sanitizeString topic, true)
    | .legacy stages =>
      if stages.length = 0 then .error "Valid path data required"
      else if stages.any (fun st => st.stageName = "") then
        .error "Invalid path stage structure"
      else .ok (sanitizeString topic, false)

/-- Totals computation from `calculatePathTotals` in
`src/server/routes/paths.js`.  The source iterates with
`pathData.forEach(stage => totalTopics += stage.keyTopics?.length || 0)`;
a new-format payload is a plain object without a `forEach` method, so the
call raises a `TypeError`, which the route's `try/catch` turns into a 500
response.  That failure is modelled as the `.error` branch. -/
def calculatePathTotals : PathData → Except String (Nat × Nat)
  | .legacy stages =>
      .ok (stages.length, stages.foldl (fun acc st => acc + st.keyTopics.length) 0)
  | .duo _ => .error "pathData.forEach is not a function"

/-- A row of the `path_progress` table (see the upsert in
`PUT /api/paths/:id/progress`, `src/server/routes/paths.js`). -/
structure ProgressRecord where
  pathId : Nat
  userId : Nat
  stageIndex : Nat
  itemType : String
  itemIndex : Nat
  isCompleted : Bool
  completedAt : Option Nat
  notes : Option String
deriving Repr, DecidableEq

/-- A row of the `user_paths` table (columns used by the routes in
`src/server/routes/paths.js`).  `status` is one of the strings
`"active"`, `"completed"`, `"archived"`; the insert in the save handler
leaves `completed_*`, `status` and `completed_at` to their schema
defaults (0, `"active"`, NULL). -/
structure UserPath where
  id : Nat
  userId : Nat
  topic : String
  pathData : PathData
  totalStages : Nat
  totalTopics : Nat
  completedStages : Nat
  completedTopics : Nat
  status : String
  lastAccessedAt : Nat
  completedAt : Option Nat
deriving Repr, DecidableEq

/-- A row of the `achievements` table (see
`createAchievement` in the achievements route file). -/
structure Achievement where
  id : Nat
  userId : Nat
  pathId : Option Nat
  atype : String
  title : String
  description : String
  topic : Option String
  icon : String
deriving Repr, DecidableEq

/-- The persistent state the modelled routes read and write. -/
structure Db where
  paths : List UserPath
  progress : List ProgressRecord
  achievements : List Achievement
  nextPathId : Nat
  nextAchievementId : Nat
deriving Repr, DecidableEq

/-- Lookup used by the save handler's duplicate check
(`SELECT id FROM user_paths WHERE user_id = ? AND topic = ? AND status = 'active'`). -/
def findActivePath (db : Db) (uid : Nat) (topic : String) : Option UserPath :=
  db.paths.find? (fun p => p.userId == uid && p.topic == topic && p.status == "active")

/-- Outcome of `POST /api/paths`. -/
inductive SaveResult where
  | badRequest (msg : String)
  | conflict (existingPathId : Nat)
  | serverError (msg : String)
  | created (pathId totalStages totalTopics : Nat)
deriving Repr, DecidableEq

/-- The `POST /api/paths` handler (`src/server/routes/paths.js`):
validation middleware, totals computation, duplicate-active-topic check,
then insert with status defaulting to `"active"` and zero completion
counters. -/
def savePath (db : Db) (uid : Nat) (topic : String) (pathData : PathData) (now : Nat) :
    SaveResult × Db :=
  match validatePathData topic pathData with
  | .error msg => (.badRequest msg, db)
  | .ok (san, _isNew) =>
    match calculatePathTotals pathData with
    | .error msg => (.serverError msg, db)
    | .ok (ts, tt) =>
      match findActivePath db uid san with
      | some existing => (.conflict existing.id, db)
      | none =>
        let p : UserPath :=
          { id := db.nextPathId, userId := uid, topic := san, pathData := pathData
          , totalStages := ts, totalTopics := tt
          , completedStages := 0, completedTopics := 0
          , status := "active", lastAccessedAt := now, completedAt := none }
        (.created p.id ts tt,
         { db with paths := db.paths ++ [p], nextPathId := db.nextPathId + 1 })

/-- Item types accepted by `validateProgressUpdate`
(`src/server/middleware/validation.js`). -/
def validItemTypes : List String := ["topic", "project", "resource", "stage"]

/-- Identity of a progress row, matching the upsert conflict target
`(path_id, stage_index, item_type, item_index)`. -/
def sameProgressKey (r : ProgressRecord) (pid s : Nat) (t : String) (i : Nat) : Bool :=
  r.pathId == pid && r.stageIndex == s && r.itemType == t && r.itemIndex == i

/-- The Supabase upsert of the progress route
(`src/server/routes/paths.js`): on key conflict the whole supplied row
replaces the stored one (in particular `notes` is overwritten with the
supplied `notes || null`), otherwise the row is inserted. -/
def upsertProgress (recs : List ProgressRecord) (nr : ProgressRecord) : List ProgressRecord :=
  if recs.any (fun r => sameProgressKey r nr.pathId nr.stageIndex nr.itemType nr.itemIndex) then
    recs.map (fun r =>
      if sameProgressKey r nr.pathId nr.stageIndex nr.itemType nr.itemIndex then nr else r)
  else recs ++ [nr]

/-- The SQLite upsert of the earlier variant of the same route
(`INSERT ... ON CONFLICT(path_id, stage_index, item_type, item_index)
DO UPDATE SET is_completed = excluded.is_completed,
completed_at = CASE WHEN excluded.is_completed = 1 THEN CURRENT_TIMESTAMP ELSE NULL END,
notes = COALESCE(excluded.notes, notes)`). -/
def upsertProgressSqlite (recs : List ProgressRecord)
    (pid uid s : Nat) (t : String) (i : Nat)
    (isCompleted : Bool) (notes : Option String) (now : Nat) : List ProgressRecord :=
  if recs.any (fun r => sameProgressKey r pid s t i) then
    recs.map (fun r =>
      if sameProgressKey r pid s t i then
        { r with isCompleted := isCompleted
               , completedAt := if isCompleted then some now else none
               , notes := ((jsOrNull notes).orElse (fun _ => r.notes)) }
      else r)
  else
    recs ++ [{ pathId := pid, userId := uid, stageIndex := s, itemType := t, itemIndex := i
             , isCompleted := isCompleted
             , completedAt := if isCompleted then some now else none
             , notes := jsOrNull notes }]

/-- Fresh aggregation over a path's progress rows, from the recalculation
query of the progress route (`item_type = t AND is_completed = 1`). -/
def countCompleted (recs : List ProgressRecord) (pid : Nat) (t : String) : Nat :=
  recs.countP (fun r => r.pathId == pid && r.itemType == t && r.isCompleted)

/-- Completed-path count for a user, from the query in
`checkFirstPathAchievement` / `checkMilestoneAchievements`
(`status = 'completed'`). -/
def countCompletedPaths (db : Db) (uid : Nat) : Nat :=
  db.paths.countP (fun p => p.userId == uid && p.status == "completed")

/-- The existence check at the top of `createAchievement`: performed only
when a path id was supplied. -/
def achievementExists (db : Db) (uid : Nat) (pathId : Option Nat) (atype : String) : Bool :=
  match pathId with
  | some pid =>
    db.achievements.any (fun a => a.userId == uid && a.pathId == some pid && a.atype == atype)
  | none => false

/-- `createAchievement` from the achievements route file: when a path id
is supplied, skip the insert if an achievement with the same
(user, path, type) already exists; with a NULL path id no existence check
is made.  Returns the newly inserted achievement, if any. -/
def createAchievement (db : Db) (uid : Nat) (pathId : Option Nat)
    (atype title description : String) (topic : Option String) (icon : String) :
    Option Achievement × Db :=
  if achievementExists db uid pathId atype then (none, db)
  else
    let a : Achievement :=
      { id := db.nextAchievementId, userId := uid, pathId := pathId
      , atype := atype, title := title, description := description
      , topic := topic, icon := icon }
    (some a, { db with achievements := db.achievements ++ [a]
                     , nextAchievementId := db.nextAchievementId + 1 })

/-- `checkFirstPathAchievement`: award `first_path` exactly when the
user's completed-path count equals 1.  Note there is no existence check
for a prior `first_path` award. -/
def checkFirstPathAchievement (db : Db) (uid : Nat) : Option Achievement × Db :=
  if countCompletedPaths db uid == 1 then
    createAchievement db uid none "first_path" "First Steps"
      "Completed your first learning path" none "rocket"
  else (none, db)

/-- The milestone table of `checkMilestoneAchievements`:
threshold, title, description, icon. -/
def milestoneDefs : List (Nat × String × String × String) :=
  [ (5, "Dedicated Learner", "Completed 5 learning paths", "star")
  , (10, "Knowledge Seeker", "Completed 10 learning paths", "zap")
  , (25, "Path Master", "Completed 25 learning paths", "crown")
  , (50, "Enlightened One", "Completed 50 learning paths", "sun") ]

/-- One iteration of the milestone loop: if the precomputed completed
count reaches the threshold and the user does not already hold that
milestone type, insert it and collect the new achievement. -/
def milestoneStep (uid cnt : Nat) (st : List Achievement × Db)
    (md : Nat × String × String × String) : List Achievement × Db :=
  if cnt ≥ md.1 then
    if st.2.achievements.any
        (fun a => a.userId == uid && a.atype == ("milestone_" ++ toString md.1)) then
      st
    else
      match createAchievement st.2 uid none ("milestone_" ++ toString md.1)
          md.2.1 md.2.2.1 none md.2.2.2 with
      | (some a, db2) => (st.1 ++ [a], db2)
      | (none, db2) => (st.1, db2)
  else st

/-- `checkMilestoneAchievements`: the completed-path count is computed
once, then each threshold is processed in order. -/
def checkMilestoneAchievements (db : Db) (uid : Nat) : List Achievement × Db :=
  milestoneDefs.foldl (milestoneStep uid (countCompletedPaths db uid)) ([], db)

/-- Outcome of `PUT /api/paths/:id/progress`. -/
inductive ToggleResult where
  | badRequest (msg : String)
  | notFound
  | updated (completedTopics completedStages : Nat)
      (isFullyCompleted : Bool) (newAchievements : List Achievement)
deriving Repr, DecidableEq

/-- The achievement block run on a completion transition in the progress
route: re-read the path row, award `path_completion` (existence-checked
per user and path inside `createAchievement`), then `first_path`, then
the milestones; collect whatever was newly inserted. -/
def awardOnCompletion (db : Db) (uid pid : Nat) : List Achievement × Db :=
  match db.paths.find? (fun p => p.id == pid) with
  | none => ([], db)
  | some pathInfo =>
    let r1 := createAchievement db uid (some pid) "path_completion"
      (pathInfo.topic ++ " Master")
      ("Completed the " ++ pathInfo.topic ++ " learning path with "
        ++ toString pathInfo.totalTopics ++ " topics")
      (some pathInfo.topic) "trophy"
    let acc1 : List Achievement := match r1.1 with | some a => [a] | none => []
    let r2 := checkFirstPathAchievement r1.2 uid
    let acc2 : List Achievement := match r2.1 with | some a => [a] | none => []
    let r3 := checkMilestoneAchievements r2.2 uid
    (acc1 ++ acc2 ++ r3.1, r3.2)

/-- The achievement phase of the progress route: run only on a
completion transition. -/
def togglePost (db1 : Db) (uid pid : Nat) (isNewCompletion : Bool) : List Achievement × Db :=
  if isNewCompletion then awardOnCompletion db1 uid pid else ([], db1)

/-- The row-update portion of the progress route: upsert the progress
row, recount both rollups from the path's rows, and write the counters,
`last_accessed_at`, and (on full completion) the `"completed"` status and
timestamp onto the path row. -/
def toggleCore (db : Db) (path : UserPath) (nr : ProgressRecord) (now : Nat) : Db :=
  let progress2 := upsertProgress db.progress nr
  let ct := countCompleted progress2 path.id "topic"
  let cs := countCompleted progress2 path.id "stage"
  let fully : Bool := ct ≥ path.totalTopics
  { db with progress := progress2
          , paths := db.paths.map (fun p =>
              if p.id == path.id then
                { p with completedTopics := ct, completedStages := cs
                       , lastAccessedAt := now
                       , status := if fully then "completed" else p.status
                       , completedAt := if fully then some now else p.completedAt }
              else p) }

/-- The `PUT /api/paths/:id/progress` handler
(`src/server/routes/paths.js`, the Supabase variant wired to
`src/server/db/index.js`): validate the item type, check ownership,
upsert the progress row, recount `completed_topics`/`completed_stages`
from all of the path's rows, detect the completion transition, write the
counters (and on full completion the `"completed"` status and
timestamp), and finally run the achievement block if the path was not
already completed. -/
def toggleItem (db : Db) (uid pidParam : Nat) (stageIndex : Nat) (itemType : String)
    (itemIndex : Nat) (isCompleted : Bool) (notes : Option String) (now : Nat) :
    ToggleResult × Db :=
  if !(validItemTypes.contains itemType) then (.badRequest "Valid item type required", db)
  else
    match db.paths.find? (fun p => p.id == pidParam && p.userId == uid) with
    | none => (.notFound, db)
    | some path =>
      let nr : ProgressRecord :=
        { pathId := path.id, userId := uid, stageIndex := stageIndex
        , itemType := itemType, itemIndex := itemIndex
        , isCompleted := isCompleted
        , completedAt := if isCompleted then some now else none
        , notes := jsOrNull notes }
      let progress2 := upsertProgress db.progress nr
      let ct := countCompleted progress2 path.id "topic"
      let cs := countCompleted progress2 path.id "stage"
      let fully : Bool := ct ≥ path.totalTopics
      let isNewCompletion : Bool := fully && path.status != "completed"
      let r := togglePost (toggleCore db path nr now) uid path.id isNewCompletion
      (.updated ct cs fully r.1, r.2)

/-- Outcome of the archive and restart routes. -/
inductive SimpleResult where
  | notFound
  | ok
deriving Repr, DecidableEq

/-- The `DELETE /api/paths/:id` handler: set `status = 'archived'` on the
caller's path; 404 when no row matched. -/
def archivePath (db : Db) (uid pid : Nat) : SimpleResult × Db :=
  if db.paths.any (fun p => p.id == pid && p.userId == uid) then
    (.ok, { db with paths := db.paths.map (fun p =>
      if p.id == pid && p.userId == uid then { p with status := "archived" } else p) })
  else (.notFound, db)

/-- The `POST /api/paths/:id/restart` handler: delete every progress row
of the path, zero the counters, set `status = 'active'` and clear
`completed_at`. -/
def restartPath (db : Db) (uid pid : Nat) (now : Nat) : SimpleResult × Db :=
  match db.paths.find? (fun p => p.id == pid && p.userId == uid) with
  | none => (.notFound, db)
  | some path =>
    let progress2 := db.progress.filter (fun r => !(r.pathId == path.id))
    let paths2 := db.paths.map (fun p =>
      if p.id == path.id then
        { p with completedTopics := 0, completedStages := 0
               , status := "active", completedAt := none, lastAccessedAt := now }
      else p)
    (.ok, { db with progress := progress2, paths := paths2 })

/-- The `GET /api/paths` handler: list the caller's paths, excluding
archived ones (`.neq('status', 'archived')`).  The route additionally
orders by `last_accessed_at`; ordering is irrelevant to the membership
facts proved below and is not modelled. -/
def listPaths (db : Db) (uid : Nat) : List UserPath :=
  db.paths.filter (fun p => p.userId == uid && p.status != "archived")

/-- The `GET /api/paths/:id` handler: fetch the caller's path by id (no
status filter), together with its progress rows, updating
`last_accessed_at` as a side effect. -/
def getPath (db : Db) (uid pid : Nat) (now : Nat) :
    Option (UserPath × List ProgressRecord) × Db :=
  match db.paths.find? (fun p => p.id == pid && p.userId == uid) with
  | none => (none, db)
  | some path =>
    let items := db.progress.filter (fun r => r.pathId == path.id)
    let paths2 := db.paths.map (fun p =>
      if p.id == path.id then { p with lastAccessedAt := now } else p)
    (some (path, items), { db with paths := paths2 })

/-- One progress-toggle request, for stating properties of request
sequences. -/
structure ToggleOp where
  uid : Nat
  pid : Nat
  stageIndex : Nat
  itemType : String
  itemIndex : Nat
  isCompleted : Bool
  notes : Option String
  now : Nat
deriving Repr, DecidableEq

/-- Apply a sequence of toggle requests, discarding the responses. -/
def applyToggles (db : Db) (ops : List ToggleOp) : Db :=
  ops.foldl (fun d op =>
    (toggleItem d op.uid op.pid op.stageIndex op.itemType op.itemIndex
      op.isCompleted op.notes op.now).2) db

/-- The cached rollup counters agree with a fresh aggregation over the
progress rows, for every stored path (spec §3 invariant). -/
def countersConsistent (db : Db) : Prop :=
  ∀ p ∈ db.paths,
    p.completedTopics = countCompleted db.progress p.id "topic" ∧
    p.completedStages = countCompleted db.progress p.id "stage"

instance : DecidablePred countersConsistent := fun db => by
  unfold countersConsistent
  infer_instance

/-- A lesson outline as returned by the content provider, from the JSON
shape requested in the learning-path prompt (`title`, `description`,
`searchQuery`). -/
structure LessonOutline where
  title : String
  description : String
  searchQuery : Option String
deriving Repr, DecidableEq

/-- A level outline from the provider response. -/
structure LevelOutline where
  levelNumber : Option Nat
  title : String
  description : String
  icon : Option String
  lessons : List LessonOutline
  challengeProject : Option String
deriving Repr, DecidableEq

/-- A unit outline from the provider response. -/
structure UnitOutline where
  unitNumber : Option Nat
  title : String
  description : String
  color : Option String
  levels : List LevelOutline
  bossChallenge : Option String
deriving Repr, DecidableEq

/-- The parsed provider response (`rawPath`). -/
structure RawPath where
  topic : Option String
  units : List UnitOutline
deriving Repr, DecidableEq

/-- Hexadecimal digit used by percent-encoding. -/
def hexDigit (n : Nat) : Char :=
  if n < 10 then Char.ofNat (48 + n) else Char.ofNat (55 + n)

/-- Characters `encodeURIComponent` leaves unescaped:
letters, digits, and `- _ . ! ~ * ' ( )`. -/
def isUriUnreserved (c : Char) : Bool :=
  c.isAlphanum || c == '-' || c == '_' || c == '.' || c == '!'
    || c == '~' || c == '*' || c == Char.ofNat 39 || c == '(' || c == ')'

/-- JS `encodeURIComponent`: unreserved characters kept, everything else
percent-encoded byte-wise from its UTF-8 encoding. -/
def encodeURIComponent (s : String) : String :=
  (s.toList.foldr
    (fun c acc =>
      (if isUriUnreserved c then [c]
       else (String.utf8EncodeChar c).foldr
         (fun b acc2 => '%' :: hexDigit (b.toNat / 16) :: hexDigit (b.toNat % 16) :: acc2) [])
      ++ acc)
    []).asString

/-- The placeholder resource substituted when a lesson's video lookup
returns nothing, from the `video || { ... }` literal of the
learning-path handler in `src/server/routes/ai.js`. -/
def placeholderResource (topic : String) (lesson : LessonOutline) : Resource :=
  { title := "Search: " ++ lesson.title
  , rtype := "Video"
  , description := "Search YouTube for this topic"
  , url := "https://www.youtube.com/results?search_query="
      ++ encodeURIComponent (jsOrString lesson.searchQuery (topic ++ " " ++ lesson.title))
  , videoId := none
  , views := "-"
  , viewCount := 0
  , publishedDate := "-"
  , durationMin := 0
  , thumbnailUrl := none }

/-- Per-lesson assembly of the learning-path handler.  `lookup` models
`searchYouTubeVideo`, which returns `null` (here `none`) when the
provider is unavailable, responds with an error, or returns no items —
every failure path of that function, including thrown exceptions, is a
`null` return.  `xp` is the pseudo-random XP reward drawn at assembly
time. -/
def buildLesson (lookup : String → Option Resource) (topic : String)
    (unitIndex levelIndex lessonIndex xp : Nat) (lesson : LessonOutline) : Lesson :=
  let video := lookup (jsOrString lesson.searchQuery (topic ++ " " ++ lesson.title))
  { id := "u" ++ toString (unitIndex + 1) ++ "-l" ++ toString (levelIndex + 1)
      ++ "-s" ++ toString (lessonIndex + 1)
  , title := lesson.title
  , description := lesson.description
  , xpReward := xp
  , resource := video.getD (placeholderResource topic lesson) }

/-- Per-level assembly; `xpOf` supplies the XP reward for each
(unit, level, lesson) position. -/
def buildLevel (lookup : String → Option Resource) (xpOf : Nat → Nat → Nat → Nat)
    (topic : String) (unitIndex levelIndex : Nat) (level : LevelOutline) : CourseLevel :=
  let lessons := (level.lessons.enum).map (fun li =>
    buildLesson lookup topic unitIndex levelIndex li.1 (xpOf unitIndex levelIndex li.1) li.2)
  { id := "u" ++ toString (unitIndex + 1) ++ "-l" ++ toString (levelIndex + 1)
  , levelNumber := jsOrNat level.levelNumber (levelIndex + 1)
  , title := level.title
  , description := level.description
  , icon := jsOrString level.icon "book"
  , lessons := lessons
  , challengeProject := level.challengeProject
  , totalXp := lessons.foldl (fun acc l => acc + l.xpReward) 0 }

/-- Per-unit assembly. -/
def buildUnit (lookup : String → Option Resource) (xpOf : Nat → Nat → Nat → Nat)
    (topic : String) (unitIndex : Nat) (u : UnitOutline) : CourseUnit :=
  { id := "u" ++ toString (unitIndex + 1)
  , unitNumber := jsOrNat u.unitNumber (unitIndex + 1)
  , title := u.title
  , description := u.description
  , color := jsOrString u.color "#10b981"
  , levels := (u.levels.enum).map (fun lv =>
      buildLevel lookup xpOf topic unitIndex lv.1 lv.2)
  , bossChallenge := u.bossChallenge }

/-- Lesson count of the provider outline. -/
def outlineLessonCount (raw : RawPath) : Nat :=
  raw.units.foldl (fun acc u =>
    acc + u.levels.foldl (fun acc2 l => acc2 + l.lessons.length) 0) 0

/-- Lesson count of the assembled path. -/
def assembledLessonCount (lp : LearningPath) : Nat :=
  lp.units.foldl (fun acc u =>
    acc + u.levels.foldl (fun acc2 l => acc2 + l.lessons.length) 0) 0

/-- The full assembly step of the learning-path handler: every lesson is
resolved through `lookup` and failures degrade to the placeholder; the
rollup counters (`totalUnits`, `totalLevels`, `totalLessons`, `totalXp`)
are the aggregate counts the handler accumulates while mapping. -/
def buildPath (lookup : String → Option Resource) (xpOf : Nat → Nat → Nat → Nat)
    (topic : String) (raw : RawPath) : LearningPath :=
  let units := (raw.units.enum).map (fun uv => buildUnit lookup xpOf topic uv.1 uv.2)
  { topic := jsOrString raw.topic topic
  , totalUnits := units.length
  , totalLevels := units.foldl (fun acc u => acc + u.levels.length) 0
  , totalLessons := units.foldl (fun acc u =>
      acc + u.levels.foldl (fun acc2 l => acc2 + l.lessons.length) 0) 0
  , totalXp := units.foldl (fun acc u =>
      acc + u.levels.foldl (fun acc2 l => acc2 + l.totalXp) 0) 0
  , units := units }

/-- The progress request emitted by the client `handleToggleLesson` for a
new-format path (`src/server/routes/ai.js`): stage index
`unitIndex * 100 + levelIndex`, item type `'topic'` ("Map to the old
progress format for backend compatibility"), item index the lesson
index.  The triple is (stageIndex, itemType, itemIndex). -/
def lessonToggleRequest (unitIndex levelIndex lessonIndex : Nat) : Nat × String × Nat :=
  (unitIndex * 100 + levelIndex, "topic", lessonIndex)

/-- The progress request emitted by the client `handleToggleBossChallenge`:
stage index `unitIndex * 100 + 99` (the reserved boss slot), item type
`'project'`, item index 0. -/
def bossToggleRequest (unitIndex : Nat) : Nat × String × Nat :=
  (unitIndex * 100 + 99, "project", 0)

/-- The progress request emitted for a legacy key topic by the client
`handleToggleProgress` (`LegacyProgressTree`): the stage index, item type
`'topic'`, and the topic index are passed through unchanged. -/
def legacyTopicToggleRequest (stageIndex topicIndex : Nat) : Nat × String × Nat :=
  (stageIndex, "topic", topicIndex)

/-- Status of the stored path with a given id. -/
def pathStatus (db : Db) (pid : Nat) : Option String :=
  (db.paths.find? (fun p => p.id == pid)).map (fun p => p.status)

/-- Completion timestamp of the stored path with a given id. -/
def pathCompletedAt (db : Db) (pid : Nat) : Option (Option Nat) :=
  (db.paths.find? (fun p => p.id == pid)).map (fun p => p.completedAt)

/-- Number of a user's achievements of a given type. -/
def countUserAchievements (db : Db) (uid : Nat) (t : String) : Nat :=
  db.achievements.countP (fun a => a.userId == uid && a.atype == t)

/-- Whether a user holds an achievement of a given type. -/
def hasUserAchievement (db : Db) (uid : Nat) (t : String) : Bool :=
  db.achievements.any (fun a => a.userId == uid && a.atype == t)

/-- A minimal concrete resource used in concrete scenarios. -/
def sampleResource : Resource :=
  { title := "t", rtype := "Video", description := "d", url := "u", videoId := none
  , views := "-", viewCount := 0, publishedDate := "-", durationMin := 0, thumbnailUrl := none }

theorem find?_map_pred {α : Type} (f : α → α) (p : α → Bool) (l : List α)
    (hf : ∀ x, p (f x) = p x) :
    (l.map f).find? p = (l.find? p).map f := by
  induction l with
  | nil => rfl
  | cons x xs ih =>
    by_cases hx : p x = true
    · simp [List.find?_cons_of_pos, hx, hf x]
    · have hx2 : p (f x) = false := by rw [hf x]; simpa using hx
      simp only [List.map_cons]
      rw [List.find?_cons_of_neg _ (by simp [hx2]), List.find?_cons_of_neg _ (by simpa using hx)]
      exact ih

theorem countP_map_replace (recs : List ProgressRecord) (nr : ProgressRecord)
    (key : ProgressRecord → Bool) (pred : ProgressRecord → Bool)
    (hnr : pred nr = false)
    (hkey : ∀ r, key r = true → pred r = false) :
    (recs.map (fun r => if key r then nr else r)).countP pred = recs.countP pred := by
  induction recs with
  | nil => rfl
  | cons r rs ih =>
    simp only [List.map_cons, List.countP_cons]
    by_cases hk : key r = true
    · rw [if_pos hk, hnr, hkey r hk, ih]
    · rw [if_neg hk, ih]

theorem countP_upsert_other (recs : List ProgressRecord) (nr : ProgressRecord)
    (pred : ProgressRecord → Bool)
    (hnr : pred nr = false)
    (hkey : ∀ r, sameProgressKey r nr.pathId nr.stageIndex nr.itemType nr.itemIndex = true →
      pred r = false) :
    (upsertProgress recs nr).countP pred = recs.countP pred := by
  unfold upsertProgress
  split
  · exact countP_map_replace recs nr _ pred hnr hkey
  · simp [List.countP_append, List.countP_cons, hnr]

theorem countCompleted_upsert_other (recs : List ProgressRecord) (nr : ProgressRecord)
    (pid : Nat) (t : String) (h : pid ≠ nr.pathId) :
    countCompleted (upsertProgress recs nr) pid t = countCompleted recs pid t := by
  unfold countCompleted
  apply countP_upsert_other
  · simp [h.symm]
  · intro r hr
    have : r.pathId = nr.pathId := by
      unfold sameProgressKey at hr
      simp only [Bool.and_eq_true, beq_iff_eq] at hr
      exact hr.1.1.1
    simp [this, h.symm]


theorem createAchievement_state (db : Db) (uid : Nat) (pathId : Option Nat)
    (atype title description : String) (topic : Option String) (icon : String) :
    (createAchievement db uid pathId atype title description topic icon).2.paths = db.paths ∧
    (createAchievement db uid pathId atype title description topic icon).2.progress = db.progress := by
  unfold createAchievement
  split <;> exact ⟨rfl, rfl⟩

theorem checkFirstPath_state (db : Db) (uid : Nat) :
    (checkFirstPathAchievement db uid).2.paths = db.paths ∧
    (checkFirstPathAchievement db uid).2.progress = db.progress := by
  unfold checkFirstPathAchievement
  split
  · exact createAchievement_state db uid none "first_path" "First Steps"
      "Completed your first learning path" none "rocket"
  · exact ⟨rfl, rfl⟩

theorem milestoneStep_state (uid cnt : Nat) (st : List Achievement × Db)
    (md : Nat × String × String × String) :
    (milestoneStep uid cnt st md).2.paths = st.2.paths ∧
    (milestoneStep uid cnt st md).2.progress = st.2.progress := by
  unfold milestoneStep
  split
  · split
    · exact ⟨rfl, rfl⟩
    · have h := createAchievement_state st.2 uid none ("milestone_" ++ toString md.1)
        md.2.1 md.2.2.1 none md.2.2.2
      rcases hres : createAchievement st.2 uid none ("milestone_" ++ toString md.1)
          md.2.1 md.2.2.1 none md.2.2.2 with ⟨a?, db2⟩
      rw [hres] at h
      cases a? <;> simp only [hres] <;> exact h
  · exact ⟨rfl, rfl⟩

theorem milestoneFold_state (uid cnt : Nat) (mds : List (Nat × String × String × String))
    (st : List Achievement × Db) :
    ((mds.foldl (milestoneStep uid cnt) st).2.paths = st.2.paths ∧
     (mds.foldl (milestoneStep uid cnt) st).2.progress = st.2.progress) := by
  induction mds generalizing st with
  | nil => exact ⟨rfl, rfl⟩
  | cons md rest ih =>
    have hstep := milestoneStep_state uid cnt st md
    have hrest := ih (milestoneStep uid cnt st md)
    simp only [List.foldl_cons]
    exact ⟨hrest.1.trans hstep.1, hrest.2.trans hstep.2⟩

theorem checkMilestones_state (db : Db) (uid : Nat) :
    (checkMilestoneAchievements db uid).2.paths = db.paths ∧
    (checkMilestoneAchievements db uid).2.progress = db.progress := by
  unfold checkMilestoneAchievements
  exact milestoneFold_state uid (countCompletedPaths db uid) milestoneDefs ([], db)

theorem awardOnCompletion_state (db : Db) (uid pid : Nat) :
    (awardOnCompletion db uid pid).2.paths = db.paths ∧
    (awardOnCompletion db uid pid).2.progress = db.progress := by
  unfold awardOnCompletion
  split
  · exact ⟨rfl, rfl⟩
  · rename_i pathInfo _
    have h1 := createAchievement_state db uid (some pid) "path_completion"
      (pathInfo.topic ++ " Master")
      ("Completed the " ++ pathInfo.topic ++ " learning path with "
        ++ toString pathInfo.totalTopics ++ " topics")
      (some pathInfo.topic) "trophy"
    have h2 := checkFirstPath_state (createAchievement db uid (some pid) "path_completion"
      (pathInfo.topic ++ " Master")
      ("Completed the " ++ pathInfo.topic ++ " learning path with "
        ++ toString pathInfo.totalTopics ++ " topics")
      (some pathInfo.topic) "trophy").2 uid
    have h3 := checkMilestones_state (checkFirstPathAchievement
      (createAchievement db uid (some pid) "path_completion"
        (pathInfo.topic ++ " Master")
        ("Completed the " ++ pathInfo.topic ++ " learning path with "
          ++ toString pathInfo.totalTopics ++ " topics")
        (some pathInfo.topic) "trophy").2 uid).2 uid
    exact ⟨(h3.1.trans h2.1).trans h1.1, (h3.2.trans h2.2).trans h1.2⟩

theorem countersConsistent_of_eq {a b : Db} (hp : a.paths = b.paths)
    (hq : a.progress = b.progress) (h : countersConsistent b) : countersConsistent a := by
  unfold countersConsistent at h ⊢
  rw [hp, hq]
  exact h

theorem toggleCore_counters (db : Db) (path : UserPath) (nr : ProgressRecord) (now : Nat)
    (h : countersConsistent db) (hpid : nr.pathId = path.id) :
    countersConsistent (toggleCore db path nr now) := by
  unfold toggleCore
  intro p hp
  simp only [List.mem_map] at hp
  obtain ⟨q, hq, rfl⟩ := hp
  by_cases hid : (q.id == path.id) = true
  · have hqid : q.id = path.id := by simpa using hid
    simp only [hid, if_true]
    exact ⟨by simp [hqid], by simp [hqid]⟩
  · simp only [hid, Bool.false_eq_true, if_false]
    have hne : q.id ≠ nr.pathId := by
      rw [hpid]
      simpa using hid
    rw [countCompleted_upsert_other db.progress nr q.id "topic" hne,
        countCompleted_upsert_other db.progress nr q.id "stage" hne]
    exact h q hq

theorem togglePost_state (db1 : Db) (uid pid : Nat) (b : Bool) :
    (togglePost db1 uid pid b).2.paths = db1.paths ∧
    (togglePost db1 uid pid b).2.progress = db1.progress := by
  unfold togglePost
  split
  · exact awardOnCompletion_state db1 uid pid
  · exact ⟨rfl, rfl⟩

theorem toggleItem_counters (db : Db) (uid pid s : Nat) (t : String) (i : Nat) (c : Bool)
    (n : Option String) (now : Nat) (h : countersConsistent db) :
    countersConsistent (toggleItem db uid pid s t i c n now).2 := by
  unfold toggleItem
  split
  · exact h
  · split
    · exact h
    · rename_i path hfind
      dsimp only
      exact countersConsistent_of_eq (togglePost_state _ uid path.id _).1
        (togglePost_state _ uid path.id _).2 (toggleCore_counters db path _ now h rfl)

theorem applyToggles_counters (ops : List ToggleOp) (db : Db) (h : countersConsistent db) :
    countersConsistent (applyToggles db ops) := by
  induction ops generalizing db with
  | nil => exact h
  | cons op rest ih =>
    simp only [applyToggles, List.foldl_cons]
    exact ih ((toggleItem db op.uid op.pid op.stageIndex op.itemType op.itemIndex
      op.isCompleted op.notes op.now).2)
      (toggleItem_counters db op.uid op.pid op.stageIndex op.itemType op.itemIndex
        op.isCompleted op.notes op.now h)

theorem toggleCore_status_completed (db : Db) (path : UserPath) (nr : ProgressRecord)
    (now pid0 : Nat) (h : pathStatus db pid0 = some "completed") :
    pathStatus (toggleCore db path nr now) pid0 = some "completed" := by
  unfold pathStatus at h ⊢
  unfold toggleCore
  rw [find?_map_pred _ _ _
    (fun p => by by_cases hid : (p.id == path.id) = true <;> simp [hid])]
  rcases hfind : db.paths.find? (fun p => p.id == pid0) with _ | p0
  · rw [hfind] at h
    simp at h
  · rw [hfind] at h ⊢
    simp only [Option.map_some'] at h ⊢
    have hst : p0.status = "completed" := by injection h
    by_cases hid : (p0.id == path.id) = true
    · simp only [hid, if_true]
      by_cases hf : (countCompleted (upsertProgress db.progress nr) path.id "topic"
        ≥ path.totalTopics : Bool) = true <;> simp [hf, hst]
    · simp [hid, hst]

theorem toggleItem_status_completed (db : Db) (uid pid s : Nat) (t : String) (i : Nat)
    (c : Bool) (n : Option String) (now pid0 : Nat)
    (h : pathStatus db pid0 = some "completed") :
    pathStatus (toggleItem db uid pid s t i c n now).2 pid0 = some "completed" := by
  unfold toggleItem
  split
  · exact h
  · split
    · exact h
    · rename_i path hfind
      dsimp only
      have hcore := toggleCore_status_completed db path
        { pathId := path.id, userId := uid, stageIndex := s
        , itemType := t, itemIndex := i, isCompleted := c
        , completedAt := if c then some now else none
        , notes := jsOrNull n } now pid0 h
      unfold pathStatus at hcore ⊢
      rw [(togglePost_state _ uid path.id _).1]
      exact hcore

theorem archive_status_not_active (db : Db) (uid pid pid0 : Nat)
    (h : pathStatus db pid0 = some "completed") :
    pathStatus (archivePath db uid pid).2 pid0 ≠ some "active" := by
  unfold archivePath
  split
  · unfold pathStatus at h ⊢
    rw [find?_map_pred _ _ _
      (fun p => by by_cases hid : (p.id == pid && p.userId == uid) = true <;> simp [hid])]
    rcases hfind : db.paths.find? (fun p => p.id == pid0) with _ | p0
    · rw [hfind] at h
      simp at h
    · rw [hfind] at h ⊢
      simp only [Option.map_some'] at h ⊢
      have hst : p0.status = "completed" := by injection h
      by_cases hid : (p0.id == pid && p0.userId == uid) = true <;> simp [hid, hst]
  · rw [h]
    simp

theorem restart_resets (db : Db) (uid pid now : Nat)
    (h : (restartPath db uid pid now).1 = .ok) :
    pathStatus (restartPath db uid pid now).2 pid = some "active" ∧
    pathCompletedAt (restartPath db uid pid now).2 pid = some none := by
  unfold restartPath at h ⊢
  rcases hfind : db.paths.find? (fun p => p.id == pid && p.userId == uid) with _ | path
  · rw [hfind] at h
    exact absurd h (by simp)
  · rw [hfind]
    have hmem := List.mem_of_find?_eq_some hfind
    have hpred := List.find?_some hfind
    have hpid : path.id = pid := by
      simp only [Bool.and_eq_true, beq_iff_eq] at hpred
      exact hpred.1
    unfold pathStatus pathCompletedAt
    rw [find?_map_pred _ _ _
      (fun p => by by_cases hid : (p.id == path.id) = true <;> simp [hid])]
    rcases hq : db.paths.find? (fun p => p.id == pid) with _ | q
    · have hsome : (db.paths.find? (fun p => p.id == pid)).isSome := by
        rw [List.find?_isSome]
        exact ⟨path, hmem, by simp [hpid]⟩
      rw [hq] at hsome
      simp at hsome
    · rw [hq]
      have hqid : q.id = pid := by
        have := List.find?_some hq
        simpa using this
      have hqpath : q.id = path.id := by rw [hqid, hpid]
      simp [hqpath]

theorem archive_notFound_iff (db : Db) (uid pid : Nat) :
    ((archivePath db uid pid).1 = .notFound ↔
      ∀ p ∈ db.paths, ¬(p.id = pid ∧ p.userId = uid)) ∧
    ((archivePath db uid pid).1 = .notFound → (archivePath db uid pid).2 = db) := by
  unfold archivePath
  by_cases hany : (db.paths.any (fun p => p.id == pid && p.userId == uid)) = true
  · rw [if_pos hany]
    constructor
    · constructor
      · intro hco
        exact absurd hco (by simp)
      · intro hall
        rcases List.any_eq_true.mp hany with ⟨p, hp, hpred⟩
        simp only [Bool.and_eq_true, beq_iff_eq] at hpred
        exact absurd hpred (hall p hp)
    · intro hco
      exact absurd hco (by simp)
  · rw [if_neg hany]
    refine ⟨⟨fun _ p hp => ?_, fun _ => rfl⟩, fun _ => rfl⟩
    intro hpe
    apply hany
    exact List.any_eq_true.mpr ⟨p, hp, by simp [hpe.1, hpe.2]⟩

theorem archive_effects (db : Db) (uid pid now : Nat)
    (h : (archivePath db uid pid).1 = .ok) :
    (archivePath db uid pid).2.paths.length = db.paths.length ∧
    (∀ p ∈ (archivePath db uid pid).2.paths,
      p.id = pid → p.userId = uid → p.status = "archived") ∧
    (getPath (archivePath db uid pid).2 uid pid now).1.isSome = true ∧
    (∀ p ∈ listPaths (archivePath db uid pid).2 uid, p.id ≠ pid) := by
  unfold archivePath at h ⊢
  by_cases hany : (db.paths.any (fun p => p.id == pid && p.userId == uid)) = true
  swap
  · rw [if_neg hany] at h
    exact absurd h (by simp)
  rw [if_pos hany] at h ⊢
  refine ⟨by simp, ?_, ?_, ?_⟩
  · intro p hp hpidv hpuid
    simp only [List.mem_map] at hp
    obtain ⟨q, hq, rfl⟩ := hp
    by_cases hcond : (q.id == pid && q.userId == uid) = true
    · simp [hcond]
    · rw [if_neg hcond] at hpidv hpuid ⊢
      exact absurd (by simp [hpidv, hpuid]) hcond
  · unfold getPath
    rw [find?_map_pred _ _ _
      (fun p => by by_cases hc : (p.id == pid && p.userId == uid) = true <;> simp [hc])]
    rcases List.any_eq_true.mp hany with ⟨p, hp, hpred⟩
    have hsome : (db.paths.find? (fun p => p.id == pid && p.userId == uid)).isSome := by
      rw [List.find?_isSome]
      exact ⟨p, hp, hpred⟩
    rcases hfind : db.paths.find? (fun p => p.id == pid && p.userId == uid) with _ | q
    · rw [hfind] at hsome
      simp at hsome
    · simp [hfind]
  · intro p hp
    unfold listPaths at hp
    simp only [List.mem_filter, List.mem_map] at hp
    obtain ⟨⟨q, hq, rfl⟩, hpred⟩ := hp
    by_cases hcond : (q.id == pid && q.userId == uid) = true
    · rw [if_pos hcond] at hpred
      simp at hpred
    · rw [if_neg hcond] at hpred ⊢
      intro hpidv
      simp only [Bool.and_eq_true, beq_iff_eq, Bool.not_eq_true] at hpred hcond
      rcases hpred with ⟨hpuid, -⟩
      exact hcond ⟨hpidv, by simpa using hpuid⟩

theorem createAchievement_skip (db : Db) (uid pid : Nat) (t ti d : String)
    (topic : Option String) (ic : String)
    (h : db.achievements.any
      (fun a => a.userId == uid && a.pathId == some pid && a.atype == t) = true) :
    createAchievement db uid (some pid) t ti d topic ic = (none, db) := by
  unfold createAchievement achievementExists
  rw [if_pos h]

theorem milestoneStep_count (uid cnt : Nat) (t : String) (st : List Achievement × Db)
    (md : Nat × String × String × String)
    (h : hasUserAchievement st.2 uid t = true) :
    countUserAchievements (milestoneStep uid cnt st md).2 uid t =
      countUserAchievements st.2 uid t ∧
    hasUserAchievement (milestoneStep uid cnt st md).2 uid t = true := by
  unfold milestoneStep
  split
  · split
    · exact ⟨rfl, h⟩
    · rename_i hnot
      unfold createAchievement achievementExists
      simp only [Bool.false_eq_true, if_false]
      have hne : (("milestone_" ++ toString md.1) == t) = false := by
        by_cases hbeq : (("milestone_" ++ toString md.1) == t) = true
        · have heq : ("milestone_" ++ toString md.1) = t := by simpa using hbeq
          rw [← heq] at h
          unfold hasUserAchievement at h
          exact absurd h hnot
        · simpa using hbeq
      constructor
      · unfold countUserAchievements
        simp [List.countP_append, List.countP_cons, hne]
      · unfold hasUserAchievement at h ⊢
        simp only [List.any_append]
        rw [h]
        simp
  · exact ⟨rfl, h⟩

theorem milestoneFold_count (uid cnt : Nat) (t : String)
    (mds : List (Nat × String × String × String)) (st : List Achievement × Db)
    (h : hasUserAchievement st.2 uid t = true) :
    countUserAchievements ((mds.foldl (milestoneStep uid cnt) st)).2 uid t =
      countUserAchievements st.2 uid t := by
  induction mds generalizing st with
  | nil => rfl
  | cons md rest ih =>
    have hstep := milestoneStep_count uid cnt t st md h
    simp only [List.foldl_cons]
    rw [ih (milestoneStep uid cnt st md) hstep.2]
    exact hstep.1

theorem checkFirstPath_inserts (db : Db) (uid : Nat)
    (h : countCompletedPaths db uid = 1) :
    countUserAchievements (checkFirstPathAchievement db uid).2 uid "first_path" =
      countUserAchievements db uid "first_path" + 1 := by
  unfold checkFirstPathAchievement
  rw [if_pos (by simp [h])]
  unfold createAchievement achievementExists
  simp only [Bool.false_eq_true, if_false]
  unfold countUserAchievements
  simp [List.countP_append, List.countP_cons]

theorem foldl_add_eq_sum {α : Type} (f : α → Nat) (l : List α) (a : Nat) :
    l.foldl (fun acc x => acc + f x) a = a + (l.map f).sum := by
  induction l generalizing a with
  | nil => simp
  | cons x xs ih =>
    simp [ih]
    omega

theorem buildLevel_lessons_len (lookup : String → Option Resource)
    (xpOf : Nat → Nat → Nat → Nat) (topic : String) (ui li : Nat) (lvl : LevelOutline) :
    (buildLevel lookup xpOf topic ui li lvl).lessons.length = lvl.lessons.length := by
  simp [buildLevel, List.enum_length]

theorem buildUnit_lesson_sum (lookup : String → Option Resource)
    (xpOf : Nat → Nat → Nat → Nat) (topic : String) (ui : Nat) (u : UnitOutline) :
    ((buildUnit lookup xpOf topic ui u).levels.map (fun l => l.lessons.length)).sum =
      (u.levels.map (fun l => l.lessons.length)).sum := by
  unfold buildUnit
  simp only [List.map_map]
  have : ((fun l => l.lessons.length) ∘ fun lv : Nat × LevelOutline =>
      buildLevel lookup xpOf topic ui lv.1 lv.2) =
      (fun lv : Nat × LevelOutline => lv.2.lessons.length) := by
    funext lv
    exact buildLevel_lessons_len lookup xpOf topic ui lv.1 lv.2
  rw [this]
  have h2 : (fun lv : Nat × LevelOutline => lv.2.lessons.length) =
      ((fun l : LevelOutline => l.lessons.length) ∘ Prod.snd) := rfl
  rw [h2, ← List.map_map, List.enum_map_snd]

theorem buildPath_lessonCount (lookup : String → Option Resource)
    (xpOf : Nat → Nat → Nat → Nat) (topic : String) (raw : RawPath) :
    assembledLessonCount (buildPath lookup xpOf topic raw) = outlineLessonCount raw := by
  unfold assembledLessonCount buildPath outlineLessonCount
  rw [foldl_add_eq_sum, foldl_add_eq_sum]
  simp only [Nat.zero_add, List.map_map]
  have hfun : ∀ l : List LevelOutline,
      (l.foldl (fun acc2 lv => acc2 + lv.lessons.length) 0) = (l.map (fun lv => lv.lessons.length)).sum := by
    intro l
    rw [foldl_add_eq_sum]
    omega
  have hfun2 : ∀ l : List CourseLevel,
      (l.foldl (fun acc2 lv => acc2 + lv.lessons.length) 0) = (l.map (fun lv => lv.lessons.length)).sum := by
    intro l
    rw [foldl_add_eq_sum]
    omega
  have hcomp : ((fun u : CourseUnit => u.levels.foldl (fun acc2 l => acc2 + l.lessons.length) 0) ∘
      fun uv : Nat × UnitOutline => buildUnit lookup xpOf topic uv.1 uv.2) =
      (fun uv : Nat × UnitOutline => (uv.2.levels.map (fun l => l.lessons.length)).sum) := by
    funext uv
    simp only [Function.comp_apply]
    rw [hfun2]
    exact buildUnit_lesson_sum lookup xpOf topic uv.1 uv.2
  rw [hcomp]
  have h3 : (fun uv : Nat × UnitOutline => (uv.2.levels.map (fun l => l.lessons.length)).sum) =
      ((fun u : UnitOutline => (u.levels.map (fun l => l.lessons.length)).sum) ∘ Prod.snd) := rfl
  rw [h3, ← List.map_map, List.enum_map_snd]
  have h4 : (fun u : UnitOutline => (u.levels.map (fun l => l.lessons.length)).sum) =
      (fun u : UnitOutline => u.levels.foldl (fun acc2 l => acc2 + l.lessons.length) 0) := by
    funext u
    rw [hfun]
  rw [h4]

/-- An empty database. -/
def emptyDb : Db :=
  { paths := [], progress := [], achievements := [], nextPathId := 1, nextAchievementId := 1 }

/-- A one-stage, one-topic legacy payload used in concrete scenarios. -/
def c3Stage : PathStage :=
  { stageName := "S1", description := "d", goal := "g"
  , keyTopics := [{ name := "T1", resource := sampleResource }]
  , suggestedProject := "p" }

/-- A database holding a single already-completed path on topic "Rust"
for user 1. -/
def c3CompletedPath : UserPath :=
  { id := 1, userId := 1, topic := "Rust", pathData := .legacy [c3Stage]
  , totalStages := 1, totalTopics := 1, completedStages := 0
  , completedTopics := 1, status := "completed"
  , lastAccessedAt := 0, completedAt := some 0 }

/-- The progress row behind `c3CompletedPath`. -/
def c3ProgressRow : ProgressRecord :=
  { pathId := 1, userId := 1, stageIndex := 0, itemType := "topic"
  , itemIndex := 0, isCompleted := true, completedAt := some 0, notes := none }

/-- A database holding the single already-completed "Rust" path of user 1. -/
def c3Db : Db :=
  { paths := [c3CompletedPath]
  , progress := [c3ProgressRow]
  , achievements := [], nextPathId := 2, nextAchievementId := 1 }

/-- C10: the claim says the tiers truncate to one decimal place, but the
code calls `toFixed(1)`, which rounds to the nearest tenth: at 1,990,000
views the code renders "2.0M views" while truncation would render
"1.9M views". -/
theorem C10_truncation_counterexample :
    formatViews 1990000 = "2.0M views" ∧
    specFormatViewsTruncated 1990000 = "1.9M views" ∧
    formatViews 1990000 ≠ specFormatViewsTruncated 1990000 := by
  refine ⟨by decide, by decide, by decide⟩

/-- C6: the claim says a new-format lesson toggle is recorded under
(unitIndex*100+levelIndex, 'lesson', lessonIndex); in the code
`handleToggleLesson` maps lessons to the legacy item type and sends
'topic', so at (0,0,0) the request triple is (0, "topic", 0), not
(0, "lesson", 0) — and it coincides exactly with the legacy key-topic
request for stage 0, topic 0. -/
theorem C6_lesson_key_counterexample :
    lessonToggleRequest 0 0 0 = (0, "topic", 0) ∧
    lessonToggleRequest 0 0 0 ≠ (0, "lesson", 0) ∧
    lessonToggleRequest 0 0 0 = legacyTopicToggleRequest 0 0 := by
  refine ⟨rfl, by decide, rfl⟩

/-- C6 (amended): a legacy path's key-topic toggles are recorded under
(stageIndex, 'topic', itemIndex); a new-format path's lesson toggles are
recorded under (unitIndex*100+levelIndex, 'topic', lessonIndex) — the
same 'topic' item type, for backend compatibility — with level slot 99
reserved for a unit's boss challenge, which is sent as
(unitIndex*100+99, 'project', 0); 'lesson' is not even an item type the
progress-update validator accepts, and the lesson and boss keying
schemes are distinguished by item type, not the two formats' lesson
keys, which coincide when the unit index is 0. -/
theorem C6_progress_key_schemes (u l i s j u2 : Nat) :
    lessonToggleRequest u l i = (u * 100 + l, "topic", i) ∧
    bossToggleRequest u2 = (u2 * 100 + 99, "project", 0) ∧
    legacyTopicToggleRequest s j = (s, "topic", j) ∧
    lessonToggleRequest u l i ≠ bossToggleRequest u2 ∧
    validItemTypes.contains "lesson" = false := by
  refine ⟨rfl, rfl, rfl, ?_, by decide⟩
  intro h
  have h2 : (lessonToggleRequest u l i).2.1 = (bossToggleRequest u2).2.1 := by rw [h]
  have h3 : "topic" = "project" := h2
  exact absurd h3 (by decide)

/-- A minimal valid new-format payload. -/
def c2Payload : PathData := .duo
  { topic := "Algebra", totalUnits := 1, totalLevels := 1, totalLessons := 1, totalXp := 12
  , units :=
    [ { id := "u1", unitNumber := 1, title := "U1", description := "d", color := "#10b981"
      , levels :=
        [ { id := "u1-l1", levelNumber := 1, title := "L1", description := "d", icon := "b"
          , lessons :=
            [ { id := "u1-l1-s1", title := "Intro", description := "d", xpReward := 12
              , resource := sampleResource } ]
          , challengeProject := none, totalXp := 12 } ]
      , bossChallenge := none } ] }

/-- C2: the validation middleware accepts the new unit/level/lesson
format (and flags it `isNewFormat`), but the save handler then calls
`calculatePathTotals`, whose `pathData.forEach` throws a `TypeError` on
the non-array payload, so the route answers 500 and stores nothing — a
new-format path can never be saved, while a legacy payload is stored
with the correct totals. -/
theorem C2_newformat_save_crashes :
    validatePathData "Algebra" c2Payload = .ok ("Algebra", true) ∧
    (savePath emptyDb 1 "Algebra" c2Payload 0).1 =
      .serverError "pathData.forEach is not a function" ∧
    (savePath emptyDb 1 "Algebra" c2Payload 0).2 = emptyDb ∧
    (savePath emptyDb 1 "Rust" (.legacy [c3Stage]) 0).1 = .created 1 1 1 := by
  refine ⟨by decide, by decide, by decide, by decide⟩

/-- C3: counterexample — user 1 already holds a non-archived
(`completed`) path on "Rust", yet saving another "Rust" path succeeds
with `created` instead of the `Conflict` the claim requires for any
non-archived duplicate. -/
theorem C3_completed_path_no_conflict :
    c3CompletedPath ∈ c3Db.paths ∧
    c3CompletedPath.userId = 1 ∧
    c3CompletedPath.topic = "Rust" ∧
    c3CompletedPath.status = "completed" ∧
    (savePath c3Db 1 "Rust" (.legacy [c3Stage]) 5).1 = .created 2 1 1 := by
  refine ⟨by decide, by decide, by decide, by decide, by decide⟩

/-- C3 (amended): an accepted save fails with a Conflict carrying the
existing path's id if and only if the same user already has a path with
status exactly `'active'` whose topic is an exact string match;
`completed` and `archived` paths do not block, so once the active path is
archived (or for a merely completed one) the same save succeeds. -/
theorem C3_conflict_iff_active (db : Db) (uid : Nat) (topic st : String)
    (pd : PathData) (isNew : Bool) (ts tt now : Nat)
    (hv : validatePathData topic pd = .ok (st, isNew))
    (ht : calculatePathTotals pd = .ok (ts, tt)) :
    ((savePath db uid topic pd now).1 =
      match findActivePath db uid st with
      | some e => SaveResult.conflict e.id
      | none => SaveResult.created db.nextPathId ts tt) ∧
    (∀ p, findActivePath db uid st = some p →
      p.userId = uid ∧ p.topic = st ∧ p.status = "active") ∧
    ((∀ p ∈ db.paths, ¬(p.userId = uid ∧ p.topic = st ∧ p.status = "active")) →
      (savePath db uid topic pd now).1 = SaveResult.created db.nextPathId ts tt) := by
  have hmain : (savePath db uid topic pd now).1 =
      match findActivePath db uid st with
      | some e => SaveResult.conflict e.id
      | none => SaveResult.created db.nextPathId ts tt := by
    unfold savePath
    rw [hv, ht]
    rcases hfa : findActivePath db uid st with _ | e <;> simp [hfa]
  refine ⟨hmain, ?_, ?_⟩
  · intro p hp
    unfold findActivePath at hp
    have := List.find?_some hp
    simp only [Bool.and_eq_true, beq_iff_eq] at this
    exact ⟨this.1.1, this.1.2, this.2⟩
  · intro hall
    have hfa : findActivePath db uid st = none := by
      unfold findActivePath
      rw [List.find?_eq_none]
      intro p hp
      have := hall p hp
      simp only [Bool.and_eq_true, beq_iff_eq]
      intro hco
      exact this ⟨hco.1.1, hco.1.2, hco.2⟩
    rw [hmain, hfa]

/-- Witness for the amended C3 theorem at a concrete state: the only
same-topic path is `completed`, so the save is accepted as `created`. -/
theorem C3_conflict_iff_active_witness :
    validatePathData "Rust" (PathData.legacy [c3Stage]) = .ok ("Rust", false) ∧
    calculatePathTotals (PathData.legacy [c3Stage]) = .ok (1, 1) ∧
    (savePath c3Db 1 "Rust" (PathData.legacy [c3Stage]) 5).1 =
      match findActivePath c3Db 1 "Rust" with
      | some e => SaveResult.conflict e.id
      | none => SaveResult.created c3Db.nextPathId 1 1 :=
  ⟨by decide, by decide,
    (C3_conflict_iff_active c3Db 1 "Rust" "Rust" (PathData.legacy [c3Stage]) false 1 1 5
      (by decide) (by decide)).1⟩

/-- The progress row whose saved note the C7 scenario tries to keep. -/
def c7Row : ProgressRecord :=
  { pathId := 1, userId := 1, stageIndex := 0, itemType := "topic", itemIndex := 0
  , isCompleted := false, completedAt := none, notes := some "keep me" }

/-- A database with one active 5-topic path and the noted progress row. -/
def c7Db : Db :=
  { paths :=
    [ { id := 1, userId := 1, topic := "Rust", pathData := .legacy [c3Stage]
      , totalStages := 1, totalTopics := 5, completedStages := 0, completedTopics := 0
      , status := "active", lastAccessedAt := 0, completedAt := none } ]
  , progress := [c7Row], achievements := [], nextPathId := 2, nextAchievementId := 1 }

/-- C7: the live (Supabase) upsert replaces the whole row, so a toggle
carrying no note overwrites a previously saved note with NULL, while the
repository's earlier SQLite upsert (`notes = COALESCE(excluded.notes,
notes)`) keeps it, as the claim and the spec require.  The completion
flag is updated and the timestamp set/cleared in both variants. -/
theorem C7_noteless_toggle_erases_note :
    ((toggleItem c7Db 1 1 0 "topic" 0 true none 7).2.progress =
      [ { pathId := 1, userId := 1, stageIndex := 0, itemType := "topic", itemIndex := 0
        , isCompleted := true, completedAt := some 7, notes := none } ]) ∧
    (upsertProgressSqlite [c7Row] 1 1 0 "topic" 0 true none 7 =
      [ { pathId := 1, userId := 1, stageIndex := 0, itemType := "topic", itemIndex := 0
        , isCompleted := true, completedAt := some 7, notes := some "keep me" } ]) ∧
    ((toggleItem c7Db 1 1 0 "topic" 0 false (some "new note") 8).2.progress =
      [ { pathId := 1, userId := 1, stageIndex := 0, itemType := "topic", itemIndex := 0
        , isCompleted := false, completedAt := none, notes := some "new note" } ]) := by
  refine ⟨by decide, by decide, by decide⟩

/-- C8: when a lesson's video lookup returns nothing (provider missing,
erroring, or empty result — `searchYouTubeVideo` returns null in every
such case), the assembled lesson carries the well-formed placeholder:
zero view count, zero duration, no video id, a "Search: " title derived
from the lesson, and a non-empty search-results fallback URL; and the
assembly itself is total — whatever the lookup does, the built path has
exactly one lesson per outline lesson. -/
theorem C8_placeholder_fallback (lookup : String → Option Resource)
    (xpOf : Nat → Nat → Nat → Nat) (topic : String) (raw : RawPath)
    (lesson : LessonOutline) (u l i xp : Nat)
    (h : lookup (jsOrString lesson.searchQuery (topic ++ " " ++ lesson.title)) = none) :
    (buildLesson lookup topic u l i xp lesson).resource.viewCount = 0 ∧
    (buildLesson lookup topic u l i xp lesson).resource.durationMin = 0 ∧
    (buildLesson lookup topic u l i xp lesson).resource.videoId = none ∧
    (buildLesson lookup topic u l i xp lesson).resource.title = "Search: " ++ lesson.title ∧
    (buildLesson lookup topic u l i xp lesson).resource.url ≠ "" ∧
    assembledLessonCount (buildPath lookup xpOf topic raw) = outlineLessonCount raw := by
  unfold buildLesson
  rw [h]
  simp only [Option.getD_none]
  refine ⟨rfl, rfl, rfl, rfl, ?_, buildPath_lessonCount lookup xpOf topic raw⟩
  unfold placeholderResource
  intro heq
  have hlen := congrArg String.length heq
  simp only [String.length_append] at hlen
  have hpre : ("https://www.youtube.com/results?search_query=").length = 45 := by decide
  rw [hpre] at hlen
  simp at hlen

/-- A concrete outline lesson whose lookup finds nothing. -/
def c8Lesson : LessonOutline :=
  { title := "What is a monad?", description := "d"
  , searchQuery := some "xyzzy-nonexistent-topic-42" }

/-- A one-unit, one-level, one-lesson outline. -/
def c8Raw : RawPath :=
  { topic := some "Haskell"
  , units :=
    [ { unitNumber := some 1, title := "U1", description := "d", color := some "#fff"
      , levels :=
        [ { levelNumber := some 1, title := "L1", description := "d", icon := some "b"
          , lessons := [c8Lesson], challengeProject := none } ]
      , bossChallenge := none } ] }

/-- Witness for C8 at a concrete failing lookup. -/
theorem C8_placeholder_fallback_witness :
    ((fun _ : String => (none : Option Resource))
      (jsOrString c8Lesson.searchQuery ("Haskell" ++ " " ++ c8Lesson.title)) = none) ∧
    ((buildLesson (fun _ => none) "Haskell" 0 0 0 12 c8Lesson).resource.viewCount = 0 ∧
     (buildLesson (fun _ => none) "Haskell" 0 0 0 12 c8Lesson).resource.durationMin = 0 ∧
     (buildLesson (fun _ => none) "Haskell" 0 0 0 12 c8Lesson).resource.videoId = none ∧
     (buildLesson (fun _ => none) "Haskell" 0 0 0 12 c8Lesson).resource.title =
       "Search: " ++ c8Lesson.title ∧
     (buildLesson (fun _ => none) "Haskell" 0 0 0 12 c8Lesson).resource.url ≠ "" ∧
     assembledLessonCount (buildPath (fun _ => none) (fun _ _ _ => 12) "Haskell" c8Raw) =
       outlineLessonCount c8Raw) :=
  ⟨rfl, C8_placeholder_fallback (fun _ => none) (fun _ _ _ => 12) "Haskell" c8Raw
    c8Lesson 0 0 0 12 rfl⟩

/-- C1: starting from any state whose rollup counters agree with a fresh
aggregation over the progress rows, after any sequence of progress-toggle
requests every path's persisted `completed_topics` still equals the
number of its ProgressRecords with item type 'topic' and completion set,
and `completed_stages` the analogous 'stage' count — the route recomputes
both by re-aggregation on every write, never incrementally. -/
theorem C1_recount_invariant (db : Db) (ops : List ToggleOp)
    (h : countersConsistent db) : countersConsistent (applyToggles db ops) :=
  applyToggles_counters ops db h

/-- A two-request toggle sequence used by the C1 witness. -/
def c1Ops : List ToggleOp :=
  [ { uid := 1, pid := 1, stageIndex := 0, itemType := "topic", itemIndex := 0
    , isCompleted := true, notes := none, now := 1 }
  , { uid := 1, pid := 1, stageIndex := 0, itemType := "stage", itemIndex := 0
    , isCompleted := true, notes := some "done", now := 2 } ]

/-- Witness for C1 on a concrete database and toggle sequence. -/
theorem C1_recount_invariant_witness :
    countersConsistent c7Db ∧ countersConsistent (applyToggles c7Db c1Ops) :=
  ⟨by decide, C1_recount_invariant c7Db c1Ops (by decide)⟩

/-- State after user 7 saves a one-topic "Rust" path. -/
def c4Db1 : Db := (savePath emptyDb 7 "Rust" (.legacy [c3Stage]) 0).2

/-- State after completing the path's only topic (completion transition:
`path_completion` and `first_path` are awarded). -/
def c4Db2 : Db := (toggleItem c4Db1 7 1 0 "topic" 0 true none 1).2

/-- State after restarting the path (progress cleared, status active). -/
def c4Db3 : Db := (restartPath c4Db2 7 1 2).2

/-- State after completing the topic again (second completion
transition). -/
def c4Db4 : Db := (toggleItem c4Db3 7 1 0 "topic" 0 true none 3).2

/-- C4: counterexample — `checkFirstPathAchievement` has no existence
check (it only tests completed-count = 1), so completing, restarting and
re-completing the same path awards `first_path` twice; `path_completion`,
which is existence-checked per (user, path), stays at one. -/
theorem C4_first_path_duplicated :
    countUserAchievements c4Db2 7 "first_path" = 1 ∧
    countUserAchievements c4Db4 7 "first_path" = 2 ∧
    countUserAchievements c4Db4 7 "path_completion" = 1 := by
  refine ⟨by decide, by decide, by decide⟩

/-- C4 (amended): `path_completion` is existence-checked per
(user, path, type) before insert, and each milestone type is
existence-checked per user before insert — once a user holds an
achievement of some type, running the milestone evaluator never adds
another of that type; but `first_path` is guarded only by the
completed-path count being exactly 1, with no existence check, so every
completion transition that observes count 1 inserts a further
`first_path` (duplicates arise from restart-and-recomplete cycles). -/
theorem C4_award_idempotence :
    (∀ (db : Db) (uid pid : Nat) (t ti d : String) (topic : Option String) (ic : String),
      db.achievements.any
        (fun a => a.userId == uid && a.pathId == some pid && a.atype == t) = true →
      createAchievement db uid (some pid) t ti d topic ic = (none, db)) ∧
    (∀ (db : Db) (uid : Nat) (t : String), hasUserAchievement db uid t = true →
      countUserAchievements (checkMilestoneAchievements db uid).2 uid t =
        countUserAchievements db uid t) ∧
    (∀ (db : Db) (uid : Nat), countCompletedPaths db uid = 1 →
      countUserAchievements (checkFirstPathAchievement db uid).2 uid "first_path" =
        countUserAchievements db uid "first_path" + 1) := by
  refine ⟨?_, ?_, ?_⟩
  · intro db uid pid t ti d topic ic h
    exact createAchievement_skip db uid pid t ti d topic ic h
  · intro db uid t h
    unfold checkMilestoneAchievements
    exact milestoneFold_count uid (countCompletedPaths db uid) t milestoneDefs ([], db) h
  · intro db uid h
    exact checkFirstPath_inserts db uid h

/-- Witness for the amended C4 theorem: in the post-completion state the
user's completed count is 1 and a `first_path` achievement already
exists, yet the evaluator inserts another. -/
theorem C4_award_idempotence_witness :
    countCompletedPaths c4Db2 7 = 1 ∧
    hasUserAchievement c4Db2 7 "first_path" = true ∧
    countUserAchievements (checkFirstPathAchievement c4Db2 7).2 7 "first_path" =
      countUserAchievements c4Db2 7 "first_path" + 1 :=
  ⟨by decide, by decide, C4_award_idempotence.2.2 c4Db2 7 (by decide)⟩

/-- C5: once a path's status is 'completed', every progress toggle —
including un-completing items — leaves it 'completed' (the route writes
a status only when the recount reaches the total, and then writes
'completed'); archiving can never flip a completed path back to 'active';
only the explicit restart route sets the status back to 'active', and it
also clears `completed_at`. -/
theorem C5_completion_monotonic :
    (∀ (db : Db) (uid pid s : Nat) (t : String) (i : Nat) (c : Bool)
      (n : Option String) (now pid0 : Nat),
      pathStatus db pid0 = some "completed" →
      pathStatus (toggleItem db uid pid s t i c n now).2 pid0 = some "completed") ∧
    (∀ (db : Db) (uid pid pid0 : Nat), pathStatus db pid0 = some "completed" →
      pathStatus (archivePath db uid pid).2 pid0 ≠ some "active") ∧
    (∀ (db : Db) (uid pid now : Nat), (restartPath db uid pid now).1 = .ok →
      pathStatus (restartPath db uid pid now).2 pid = some "active" ∧
      pathCompletedAt (restartPath db uid pid now).2 pid = some none) :=
  ⟨fun db uid pid s t i c n now pid0 h =>
      toggleItem_status_completed db uid pid s t i c n now pid0 h,
   fun db uid pid pid0 h => archive_status_not_active db uid pid pid0 h,
   fun db uid pid now h => restart_resets db uid pid now h⟩

/-- Witness for C5: un-completing the only topic of the completed "Rust"
path leaves its status 'completed'. -/
theorem C5_completion_monotonic_witness :
    pathStatus c3Db 1 = some "completed" ∧
    pathStatus (toggleItem c3Db 1 1 0 "topic" 0 false none 9).2 1 = some "completed" :=
  ⟨by decide, C5_completion_monotonic.1 c3Db 1 1 0 "topic" 0 false none 9 1 (by decide)⟩

/-- C9: archiving is a soft status transition — a 404 is returned exactly
when the caller owns no such path (and then nothing changes); on success
no row is deleted, every matching owned row's status becomes 'archived',
the path remains fetchable through the by-id route, and it no longer
appears in the owner's path listing. -/
theorem C9_archive_soft_transition (db : Db) (uid pid now : Nat) :
    ((archivePath db uid pid).1 = .notFound ↔
      ∀ p ∈ db.paths, ¬(p.id = pid ∧ p.userId = uid)) ∧
    ((archivePath db uid pid).1 = .notFound → (archivePath db uid pid).2 = db) ∧
    ((archivePath db uid pid).1 = .ok →
      (archivePath db uid pid).2.paths.length = db.paths.length ∧
      (∀ p ∈ (archivePath db uid pid).2.paths,
        p.id = pid → p.userId = uid → p.status = "archived") ∧
      (getPath (archivePath db uid pid).2 uid pid now).1.isSome = true ∧
      (∀ p ∈ listPaths (archivePath db uid pid).2 uid, p.id ≠ pid)) :=
  ⟨(archive_notFound_iff db uid pid).1, (archive_notFound_iff db uid pid).2,
   archive_effects db uid pid now⟩

/-- Witness for C9 at a concrete state: archiving user 1's path 1
succeeds and the archived row is still fetchable but absent from the
listing. -/
theorem C9_archive_soft_transition_witness :
    (archivePath c3Db 1 1).1 = .ok ∧
    ((archivePath c3Db 1 1).2.paths.length = c3Db.paths.length ∧
     (∀ p ∈ (archivePath c3Db 1 1).2.paths,
       p.id = 1 → p.userId = 1 → p.status = "archived") ∧
     (getPath (archivePath c3Db 1 1).2 1 1 9).1.isSome = true ∧
     (∀ p ∈ listPaths (archivePath c3Db 1 1).2 1, p.id ≠ 1)) :=
  ⟨by decide, (C9_archive_soft_transition c3Db 1 1 9).2.2 (by decide)⟩

/-- Witness for the amended C6 theorem at concrete indices. -/
theorem C6_progress_key_schemes_witness :
    lessonToggleRequest 2 3 4 = (2 * 100 + 3, "topic", 4) ∧
    bossToggleRequest 7 = (7 * 100 + 99, "project", 0) ∧
    legacyTopicToggleRequest 5 6 = (5, "topic", 6) ∧
    lessonToggleRequest 2 3 4 ≠ bossToggleRequest 7 ∧
    validItemTypes.contains "lesson" = false :=
  C6_progress_key_schemes 2 3 4 5 6 7

theorem natLog2Aux_bounds (fuel : Nat) : ∀ n, 1 ≤ n → n ≤ fuel →
    2 ^ natLog2Aux fuel n ≤ n ∧ n < 2 ^ (natLog2Aux fuel n + 1) := by
  induction fuel with
  | zero => intro n h1 h2; omega
  | succ fuel ih =>
    intro n h1 h2
    simp only [natLog2Aux]
    by_cases hn : 2 ≤ n
    · rw [if_pos hn]
      obtain ⟨hl, hu⟩ := ih (n / 2) (by omega) (by omega)
      have e1 : (2:Nat) ^ (natLog2Aux fuel (n / 2) + 1) = 2 * 2 ^ natLog2Aux fuel (n / 2) := by
        ring
      have e2 : (2:Nat) ^ (natLog2Aux fuel (n / 2) + 1 + 1) =
          2 * 2 ^ (natLog2Aux fuel (n / 2) + 1) := by ring
      omega
    · rw [if_neg hn]
      have hone : n = 1 := by omega
      subst hone
      norm_num

theorem natLog2_bounds (n : Nat) (h : 1 ≤ n) :
    2 ^ natLog2 n ≤ n ∧ n < 2 ^ (natLog2 n + 1) :=
  natLog2Aux_bounds n n h (le_refl n)

theorem rne_bounds (p q : Nat) : p / q ≤ rne p q ∧ rne p q ≤ p / q + 1 := by
  unfold rne
  split
  · omega
  · split
    · omega
    · split <;> omega

theorem rne_nearest (p q : Nat) (hq : 0 < q) :
    2 * rne p q * q ≤ 2 * p + q ∧ 2 * p ≤ 2 * rne p q * q + q := by
  have hmlt : p % q < q := Nat.mod_lt p hq
  have hdm : q * (p / q) + p % q = p := Nat.div_add_mod p q
  unfold rne
  generalize hd : p / q = d at *
  generalize hr : p % q = r at *
  subst hdm
  split
  · constructor <;> nlinarith
  · split
    · constructor <;> nlinarith
    · split <;> constructor <;> nlinarith

theorem rne_tie_even (p q : Nat) (h : 2 * (p % q) = q) : rne p q % 2 = 0 := by
  unfold rne
  rw [if_neg (by omega), if_neg (by omega)]
  split
  · assumption
  · omega

theorem rhu_nearest (p q : Nat) (hq : 0 < q) :
    2 * rhu p q * q ≤ 2 * p + q ∧ 2 * p + q < 2 * rhu p q * q + 2 * q := by
  have hmlt : (2 * p + q) % (2 * q) < 2 * q := Nat.mod_lt _ (by omega)
  have hdm : (2 * q) * ((2 * p + q) / (2 * q)) + (2 * p + q) % (2 * q) = 2 * p + q :=
    Nat.div_add_mod _ _
  unfold rhu
  generalize hD : (2 * p + q) / (2 * q) = D at *
  generalize hR : (2 * p + q) % (2 * q) = R at *
  constructor <;> nlinarith

theorem rne_range (p q : Nat) (hq : 0 < q) (hlo : 2 ^ 52 * q ≤ p) (hhi : p < 2 ^ 53 * q) :
    2 ^ 52 ≤ rne p q ∧ rne p q ≤ 2 ^ 53 := by
  have hb := rne_bounds p q
  have hdiv_lo : 2 ^ 52 ≤ p / q := (Nat.le_div_iff_mul_le hq).mpr hlo
  have hdiv_hi : p / q < 2 ^ 53 := by
    rw [Nat.div_lt_iff_lt_mul hq]
    exact hhi
  omega

theorem binadeExp_bounds (n q : Nat) (hq : 0 < q) (hnq : q ≤ n) :
    0 ≤ binadeExp n q ∧
    2 ^ (binadeExp n q).toNat * q ≤ n ∧
    n < 2 ^ ((binadeExp n q).toNat + 1) * q := by
  unfold binadeExp
  have ha1 : 2 ^ 64 ≤ n * 2 ^ 64 / q := by
    rw [Nat.le_div_iff_mul_le hq]
    calc 2 ^ 64 * q ≤ 2 ^ 64 * n := Nat.mul_le_mul_left _ hnq
      _ = n * 2 ^ 64 := by ring
  obtain ⟨hblo, hbhi⟩ := natLog2_bounds (n * 2 ^ 64 / q) (by omega)
  have hL64 : 64 ≤ natLog2 (n * 2 ^ 64 / q) := by
    by_contra hcon
    push_neg at hcon
    have : (2:Nat) ^ (natLog2 (n * 2 ^ 64 / q) + 1) ≤ 2 ^ 64 :=
      Nat.pow_le_pow_right (by norm_num) (by omega)
    omega
  set L := natLog2 (n * 2 ^ 64 / q) with hLdef
  have htoNat : ((L : Int) - 64).toNat = L - 64 := by omega
  rw [htoNat]
  refine ⟨by omega, ?_, ?_⟩
  · have h1 : 2 ^ L * q ≤ n * 2 ^ 64 := (Nat.le_div_iff_mul_le hq).mp hblo
    have h2 : (2:Nat) ^ L = 2 ^ (L - 64) * 2 ^ 64 := by
      rw [← pow_add]
      congr 1
      omega
    have h3 : (2 ^ (L - 64) * q) * 2 ^ 64 ≤ n * 2 ^ 64 := by
      calc (2 ^ (L - 64) * q) * 2 ^ 64 = (2 ^ (L - 64) * 2 ^ 64) * q := by ring
        _ = 2 ^ L * q := by rw [← h2]
        _ ≤ n * 2 ^ 64 := h1
    exact Nat.le_of_mul_le_mul_right h3 (by positivity)
  · have h1 : n * 2 ^ 64 < 2 ^ (L + 1) * q := by
      rw [← Nat.div_lt_iff_lt_mul hq]
      exact hbhi
    have h2 : (2:Nat) ^ (L + 1) = 2 ^ (L - 64 + 1) * 2 ^ 64 := by
      rw [← pow_add]
      congr 1
      omega
    have h3 : n * 2 ^ 64 < (2 ^ (L - 64 + 1) * q) * 2 ^ 64 := by
      calc n * 2 ^ 64 < 2 ^ (L + 1) * q := h1
        _ = (2 ^ (L - 64 + 1) * q) * 2 ^ 64 := by rw [h2]; ring
    exact Nat.lt_of_mul_lt_mul_right h3

theorem doubleOfRat_range (n q : Nat) (hq : 0 < q) (hnq : q ≤ n) :
    2 ^ 52 ≤ (doubleOfRat n q).1 ∧ (doubleOfRat n q).1 ≤ 2 ^ 53 := by
  obtain ⟨ht0, hlo, hhi⟩ := binadeExp_bounds n q hq hnq
  unfold doubleOfRat
  set t := binadeExp n q with htdef
  by_cases hle : t ≤ 52
  · simp only [hle, if_true]
    have h52 : (52 - t).toNat = 52 - t.toNat := by omega
    have htle : t.toNat ≤ 52 := by omega
    rw [h52]
    apply rne_range _ _ hq
    · have hsplit : (2:Nat) ^ 52 = 2 ^ t.toNat * 2 ^ (52 - t.toNat) := by
        rw [← pow_add]
        congr 1
        omega
      calc 2 ^ 52 * q = (2 ^ t.toNat * q) * 2 ^ (52 - t.toNat) := by rw [hsplit]; ring
        _ ≤ n * 2 ^ (52 - t.toNat) := Nat.mul_le_mul_right _ hlo
    · have hsplit : (2:Nat) ^ 53 = 2 ^ (t.toNat + 1) * 2 ^ (52 - t.toNat) := by
        rw [← pow_add]
        congr 1
        omega
      calc n * 2 ^ (52 - t.toNat) < (2 ^ (t.toNat + 1) * q) * 2 ^ (52 - t.toNat) :=
            (Nat.mul_lt_mul_right (by positivity)).mpr hhi
        _ = 2 ^ 53 * q := by rw [hsplit]; ring
  · simp only [hle, Bool.false_eq_true, if_false]
    have ht53 : 53 ≤ t.toNat := by omega
    have hsub : (t - 52).toNat = t.toNat - 52 := by omega
    rw [hsub]
    apply rne_range _ _ (by positivity)
    · have hsplit : (2:Nat) ^ t.toNat = 2 ^ 52 * 2 ^ (t.toNat - 52) := by
        rw [← pow_add]
        congr 1
        omega
      calc 2 ^ 52 * (q * 2 ^ (t.toNat - 52)) = 2 ^ t.toNat * q := by rw [hsplit]; ring
        _ ≤ n := hlo
    · have hsplit : (2:Nat) ^ (t.toNat + 1) = 2 ^ 53 * 2 ^ (t.toNat - 52) := by
        rw [← pow_add]
        congr 1
        omega
      calc n < 2 ^ (t.toNat + 1) * q := hhi
        _ = 2 ^ 53 * (q * 2 ^ (t.toNat - 52)) := by rw [hsplit]; ring

/-- C10 (amended): the display string is produced in tiers — for counts
at least 1,000,000 it is the count divided by 1,000,000, the division
performed in IEEE-754 double arithmetic, rendered with one decimal place
by `toFixed(1)` — which rounds the double to the nearest tenth, larger on
ties, rather than truncating — followed by "M views"; for counts at
least 1,000 the same over 1,000 followed by "K views"; otherwise the
literal integer followed by " views".  The rounding pipeline is
characterized exactly: the significand step is nearest with ties to
even, the tenth step is nearest with ties up, the binade exponent
brackets the quotient, and the significand lands in [2^52, 2^53]. -/
theorem C10_view_format_double (n p q : Nat) (hq : 0 < q) :
    (1000000 ≤ n → formatViews n = jsToFixed1 n 1000000 ++ "M views") ∧
    (n < 1000000 → 1000 ≤ n → formatViews n = jsToFixed1 n 1000 ++ "K views") ∧
    (n < 1000 → formatViews n = toString n ++ " views") ∧
    (2 * rne p q * q ≤ 2 * p + q ∧ 2 * p ≤ 2 * rne p q * q + q) ∧
    (2 * (p % q) = q → rne p q % 2 = 0) ∧
    (2 * rhu p q * q ≤ 2 * p + q ∧ 2 * p + q < 2 * rhu p q * q + 2 * q) ∧
    (q ≤ n → 2 ^ (binadeExp n q).toNat * q ≤ n ∧ n < 2 ^ ((binadeExp n q).toNat + 1) * q) ∧
    (q ≤ n → 2 ^ 52 ≤ (doubleOfRat n q).1 ∧ (doubleOfRat n q).1 ≤ 2 ^ 53) := by
  refine ⟨?_, ?_, ?_, rne_nearest p q hq, rne_tie_even p q, rhu_nearest p q hq, ?_, ?_⟩
  · intro h
    unfold formatViews
    rw [if_pos h]
  · intro h1 h2
    unfold formatViews
    rw [if_neg (by omega), if_pos h2]
  · intro h
    unfold formatViews
    rw [if_neg (by omega), if_neg (by omega)]
  · intro h
    exact ⟨(binadeExp_bounds n q hq h).2.1, (binadeExp_bounds n q hq h).2.2⟩
  · intro h
    exact doubleOfRat_range n q hq h

/-- Witness for the amended C10 theorem at the count 1,150,000, whose
exact quotient 1.15 sits on a decimal half-way tie but whose nearest
double lies just below it: the program (and the model) render
"1.1M views". -/
theorem C10_view_format_double_witness :
    (1000000 ≤ 1150000 ∧ formatViews 1150000 = jsToFixed1 1150000 1000000 ++ "M views") ∧
    jsToFixed1 1150000 1000000 = "1.1" ∧
    formatViews 1150000 = "1.1M views" ∧
    (1000000 ≤ 1150000 ∧ 2 ^ 52 ≤ (doubleOfRat 1150000 1000000).1 ∧
      (doubleOfRat 1150000 1000000).1 ≤ 2 ^ 53) :=
  ⟨⟨by decide, (C10_view_format_double 1150000 0 1 (by decide)).1 (by decide)⟩,
   by decide, by decide,
   ⟨by decide, (C10_view_format_double 1150000 23 1000000 (by decide)).2.2.2.2.2.2.2 (by decide)⟩⟩
